import Mathlib

/-!
Verification of the format-string core of `tinyformat` (src/tinyformat.cpp).

Modelling conventions:
* A C format string is modelled as the `List Char` of its characters before the
  terminating NUL; reaching the end of the list models reading `'\0'`.
* `std::ostream` formatting configuration (width, precision, fill, and the
  `fmtflags` bits touched by the code: adjustfield, basefield, floatfield,
  showbase, showpoint, showpos, uppercase, boolalpha) is modelled by the
  `StreamState` record.  `std::streamsize` quantities are modelled by `Int`
  (the code never relies on machine-width overflow of widths or precisions).
* `TINYFORMAT_ERROR` is declared outside src/ (tinyformat_noinlines.h).
  Modelled from the spec: the spec's §4.3 error policy point ("a reportable
  condition that the host may choose to treat as a thrown fault, a logged
  message, or a hard abort") is modelled with the logged-message policy, under
  which the macro records the message and control continues exactly along the
  written control flow (the `return`/`break` statements after each
  `TINYFORMAT_ERROR` call are what the code itself does next).
* `detail::FormatArg` is declared outside src/.  Modelled from the spec: the
  core consumes arguments only through the capability interface of §6 — the
  `toInt` capability (used for `*` width/precision) is modelled by giving each
  argument as its `toInt` value (`List Int`), and the `format` (render)
  capability, whose output is produced by the external collaborator, is
  recorded as an abstract `Event.render` trace entry carrying everything the
  core hands to it (argument index, stream state, `ntrunc`, and whether the
  space-pad-positive rewriting path was taken).
* Everything written to the stream by the core itself (`out.write` in
  `printFormatStringLiteral`) is recorded as an `Event.out` trace entry, and
  every reported error as an `Event.err` entry, so that the order of output,
  rendering and error reporting is observable.
-/

namespace Tinyformat

/-- The `std::ios_base` adjustfield bits touched by the code
(`left`/`right`/`internal`, or none of them set). -/
inductive AdjustField
  | unset
  | left
  | right
  | internal
deriving Repr, DecidableEq

/-- The `std::ios_base` basefield bits (`dec`/`oct`/`hex`, or none set). -/
inductive BaseField
  | unset
  | dec
  | oct
  | hex
deriving Repr, DecidableEq

/-- The `std::ios_base` floatfield bits (`fixed`/`scientific`, or none set). -/
inductive FloatField
  | unset
  | fixed
  | scientific
deriving Repr, DecidableEq

/-- The destination stream's formatting configuration: width, precision, fill
character, and the format flags mutated by `streamStateFromFormat`. -/
structure StreamState where
  width : Int
  precision : Int
  fill : Char
  adjust : AdjustField
  base : BaseField
  floatF : FloatField
  showbase : Bool
  showpoint : Bool
  showpos : Bool
  uppercase : Bool
  boolalpha : Bool
deriving Repr, DecidableEq

/-- Configuration of a freshly constructed `std::ostream` (used as a concrete
stream in witnesses): width 0, precision 6, fill `' '`, `dec` base, no other
flags. -/
def defaultStream : StreamState :=
  { width := 0, precision := 6, fill := ' ', adjust := AdjustField.unset,
    base := BaseField.dec, floatF := FloatField.unset, showbase := false,
    showpoint := false, showpos := false, uppercase := false, boolalpha := false }

/-- A stream configuration with a non-default precision, used to observe
whether a formatting call restores the caller's configuration. -/
def precTenStream : StreamState :=
  { defaultStream with precision := 10 }

/-- Error message of `streamStateFromFormat` when the cursor is not at `'%'`. -/
def errNotEnoughSpecifiers : String :=
  "tinyformat: Not enough conversion specifiers in format string"

/-- Error message when `*` width finds no remaining argument. -/
def errNotEnoughArgsWidth : String :=
  "tinyformat: Not enough arguments to read variable width"

/-- Error message when `*` precision finds no remaining argument. -/
def errNotEnoughArgsPrecision : String :=
  "tinyformat: Not enough arguments to read variable precision"

/-- Error message for the unsupported `%a` / `%A` conversions. -/
def errHexFloat : String :=
  "tinyformat: the %a and %A conversion specs are not supported"

/-- Error message for the unsupported `%n` conversion. -/
def errPercentN : String :=
  "tinyformat: %n conversion spec not supported"

/-- Error message when a conversion spec runs into the end of the string. -/
def errBadTermination : String :=
  "tinyformat: Conversion spec incorrectly terminated by end of string"

/-- Error message of `formatImpl` when arguments run out. -/
def errNotEnoughFormatArgs : String :=
  "tinyformat: Not enough format arguments"

/-- Error message of `formatImpl` when specifiers remain after the last
argument. -/
def errTooManySpecifiers : String :=
  "tinyformat: Too many conversion specifiers in format string"

/-- `parseIntAndAdvance` loop: `i = 10*i + (*c - '0')` over leading digits. -/
def parseIntLoop : Int → List Char → Int × List Char
  | i, [] => (i, [])
  | i, c :: rest =>
      if c.isDigit then parseIntLoop (10 * i + ((c.toNat : Int) - ('0'.toNat : Int))) rest
      else (i, c :: rest)

/-- `parseIntAndAdvance`: parse an integer as `atoi` would and return it
together with the cursor one past the end of the digit run. -/
def parseIntAndAdvance (cs : List Char) : Int × List Char :=
  parseIntLoop 0 cs

/-- `printFormatStringLiteral`: emit the literal part of the format string
(collapsing `%%` to a single `%`) and return the emitted text together with the
cursor at the first `%` of the next nontrivial format spec (or at the end). -/
def printFormatStringLiteral : List Char → List Char × List Char
  | [] => ([], [])
  | ch :: rest =>
      if ch = '%' then
        match rest with
        | c2 :: rest2 =>
            if c2 = '%' then
              -- for "%%", tack trailing % onto next literal section
              let r := printFormatStringLiteral rest2
              ('%' :: r.1, r.2)
            else
              ([], ch :: c2 :: rest2)
        | [] => ([], [ch])
      else
        let r := printFormatStringLiteral rest
        (ch :: r.1, r.2)

/-- Is `c` one of the five C99 flag characters handled by the flag loop? -/
def isFlagChar (c : Char) : Bool :=
  c = '#' || c = '0' || c = '-' || c = ' ' || c = '+'

/-- Result of the flag-parsing loop (step 1 of `streamStateFromFormat`):
remaining cursor, mutated stream state, the `spacePadPositive` out-parameter
and the local `widthExtra` counter. -/
structure FlagResult where
  rest : List Char
  state : StreamState
  spacePadPositive : Bool
  widthExtra : Int
deriving Repr, DecidableEq

/-- Step 1 of `streamStateFromFormat`: the flag loop (lines 79-114). -/
def parseFlags : List Char → StreamState → Bool → Int → FlagResult
  | [], s, spp, we => { rest := [], state := s, spacePadPositive := spp, widthExtra := we }
  | c :: rest, s, spp, we =>
      if c = '#' then
        parseFlags rest { s with showpoint := true, showbase := true } spp we
      else if c = '0' then
        -- overridden by left alignment ('-' flag)
        (if s.adjust = AdjustField.left then parseFlags rest s spp we
         else parseFlags rest { s with fill := '0', adjust := AdjustField.internal } spp we)
      else if c = '-' then
        parseFlags rest { s with fill := ' ', adjust := AdjustField.left } spp we
      else if c = ' ' then
        -- overridden by show positive sign, '+' flag
        (if s.showpos then parseFlags rest s spp we
         else parseFlags rest s true we)
      else if c = '+' then
        parseFlags rest { s with showpos := true } false 1
      else
        { rest := c :: rest, state := s, spacePadPositive := spp, widthExtra := we }

/-- Does the cursor sit on a decimal digit? -/
def headDigit : List Char → Bool
  | c :: _ => c.isDigit
  | [] => false

/-- Result of the width-parsing step: cursor, state, the local `widthSet`
flag, updated argument index, reported errors. -/
structure WidthResult where
  rest : List Char
  state : StreamState
  widthSet : Bool
  argIndex : Nat
  errors : List String
deriving Repr, DecidableEq

/-- Literal-digits part of step 2 of `streamStateFromFormat` (lines 116-120):
returns cursor, state and `widthSet`. -/
def parseWidthLiteral (cs : List Char) (s : StreamState) : List Char × StreamState × Bool :=
  if headDigit cs then
    let p := parseIntAndAdvance cs
    (p.2, { s with width := p.1 }, true)
  else
    (cs, s, false)

/-- `*` part of step 2 of `streamStateFromFormat` (lines 121-138): a variable
width is pulled from the argument list; a negative value sets left alignment
and uses the absolute value. -/
def parseWidthStar (cs : List Char) (s : StreamState) (widthSet : Bool)
    (args : List Int) (argIndex : Nat) : WidthResult :=
  match cs with
  | c :: rest =>
      if c = '*' then
        if argIndex < args.length then
          let width := args.getD argIndex 0
          if width < 0 then
            -- negative widths correspond to '-' flag set
            { rest := rest,
              state := { s with fill := ' ', adjust := AdjustField.left, width := -width },
              widthSet := true, argIndex := argIndex + 1, errors := [] }
          else
            { rest := rest, state := { s with width := width }, widthSet := true,
              argIndex := argIndex + 1, errors := [] }
        else
          { rest := rest, state := { s with width := 0 }, widthSet := true,
            argIndex := argIndex, errors := [errNotEnoughArgsWidth] }
      else
        { rest := c :: rest, state := s, widthSet := widthSet, argIndex := argIndex,
          errors := [] }
  | [] =>
      { rest := [], state := s, widthSet := widthSet, argIndex := argIndex, errors := [] }

/-- Step 2 of `streamStateFromFormat`: parse the width field. -/
def parseWidth (cs : List Char) (s : StreamState) (args : List Int) (argIndex : Nat) :
    WidthResult :=
  let l := parseWidthLiteral cs s
  parseWidthStar l.1 l.2.1 l.2.2 args argIndex

/-- Result of the precision-parsing step. -/
structure PrecResult where
  rest : List Char
  state : StreamState
  precisionSet : Bool
  argIndex : Nat
  errors : List String
deriving Repr, DecidableEq

/-- Step 3 of `streamStateFromFormat` (lines 140-161): parse the precision
field.  A `.` followed by `-` and digits is silently read and the precision is
set to 0; a missing `.` leaves the state untouched. -/
def parsePrecision (cs : List Char) (s : StreamState) (args : List Int) (argIndex : Nat) :
    PrecResult :=
  match cs with
  | [] => { rest := [], state := s, precisionSet := false, argIndex := argIndex, errors := [] }
  | c :: cs1 =>
      if c = '.' then
        match cs1 with
        | [] =>
            { rest := [], state := { s with precision := 0 }, precisionSet := true,
              argIndex := argIndex, errors := [] }
        | c2 :: cs2 =>
            if c2 = '*' then
              (if argIndex < args.length then
                { rest := cs2, state := { s with precision := args.getD argIndex 0 },
                  precisionSet := true, argIndex := argIndex + 1, errors := [] }
               else
                { rest := cs2, state := { s with precision := 0 }, precisionSet := true,
                  argIndex := argIndex, errors := [errNotEnoughArgsPrecision] })
            else if c2.isDigit then
              let p := parseIntAndAdvance cs1
              { rest := p.2, state := { s with precision := p.1 }, precisionSet := true,
                argIndex := argIndex, errors := [] }
            else if c2 = '-' then
              -- negative precisions ignored, treated as zero
              let p := parseIntAndAdvance cs2
              { rest := p.2, state := { s with precision := 0 }, precisionSet := true,
                argIndex := argIndex, errors := [] }
            else
              { rest := c2 :: cs2, state := { s with precision := 0 }, precisionSet := true,
                argIndex := argIndex, errors := [] }
      else
        { rest := c :: cs1, state := s, precisionSet := false, argIndex := argIndex,
          errors := [] }

/-- Is `c` a C99 length modifier (step 4, skipped with no semantic effect)? -/
def isLengthModifier (c : Char) : Bool :=
  c = 'l' || c = 'h' || c = 'L' || c = 'j' || c = 'z' || c = 't'

/-- Step 4 of `streamStateFromFormat` (lines 163-165): skip length modifiers. -/
def skipLengthModifiers (cs : List Char) : List Char :=
  cs.dropWhile isLengthModifier

/-- Effect of one conversion character on the stream state and the
side-channels: new state, `ntrunc`, the local `intConversion` flag, and any
reported error. -/
structure ConvCharResult where
  state : StreamState
  ntrunc : Int
  intConversion : Bool
  errors : List String
deriving Repr, DecidableEq

/-- The arms of the conversion-character switch for an actual character
(every arm of lines 170-227 except the `'\0'` one). -/
def convSwitchChar (c : Char) (s : StreamState) (ntrunc : Int) (precisionSet : Bool) :
    ConvCharResult :=
  if c = 'u' ∨ c = 'd' ∨ c = 'i' then
    { state := { s with base := BaseField.dec }, ntrunc := ntrunc,
      intConversion := true, errors := [] }
  else if c = 'o' then
    { state := { s with base := BaseField.oct }, ntrunc := ntrunc,
      intConversion := true, errors := [] }
  else if c = 'X' then
    { state := { s with uppercase := true, base := BaseField.hex }, ntrunc := ntrunc,
      intConversion := true, errors := [] }
  else if c = 'x' ∨ c = 'p' then
    { state := { s with base := BaseField.hex }, ntrunc := ntrunc,
      intConversion := true, errors := [] }
  else if c = 'E' then
    { state := { s with
                 uppercase := true, floatF := FloatField.scientific,
                 base := BaseField.dec },
      ntrunc := ntrunc, intConversion := false, errors := [] }
  else if c = 'e' then
    { state := { s with floatF := FloatField.scientific, base := BaseField.dec },
      ntrunc := ntrunc, intConversion := false, errors := [] }
  else if c = 'F' then
    { state := { s with uppercase := true, floatF := FloatField.fixed },
      ntrunc := ntrunc, intConversion := false, errors := [] }
  else if c = 'f' then
    { state := { s with floatF := FloatField.fixed }, ntrunc := ntrunc,
      intConversion := false, errors := [] }
  else if c = 'G' then
    { state := { s with
                 uppercase := true, base := BaseField.dec, floatF := FloatField.unset },
      ntrunc := ntrunc, intConversion := false, errors := [] }
  else if c = 'g' then
    { state := { s with base := BaseField.dec, floatF := FloatField.unset },
      ntrunc := ntrunc, intConversion := false, errors := [] }
  else if c = 'a' ∨ c = 'A' then
    { state := s, ntrunc := ntrunc, intConversion := false, errors := [errHexFloat] }
  else if c = 'c' then
    -- handled as a special case inside the render capability
    { state := s, ntrunc := ntrunc, intConversion := false, errors := [] }
  else if c = 's' then
    { state := { s with boolalpha := true },
      ntrunc := if precisionSet then s.precision else ntrunc,
      intConversion := false, errors := [] }
  else if c = 'n' then
    { state := s, ntrunc := ntrunc, intConversion := false, errors := [errPercentN] }
  else
    { state := s, ntrunc := ntrunc, intConversion := false, errors := [] }

/-- The conversion characters that have their own arm in the switch (every
case label of lines 170-227 other than `'\0'`). -/
def recognizedConvChars : List Char :=
  ['d', 'i', 'u', 'o', 'x', 'X', 'p', 'e', 'E', 'f', 'F', 'g', 'G', 'c', 's', 'a', 'A', 'n']

/-- Result of the conversion-character switch: cursor past the conversion
character, state, `ntrunc`, the local `intConversion` flag, reported errors,
and whether the `'\0'` arm returned early (skipping the integer-precision
fixup). -/
structure ConvResult where
  rest : List Char
  state : StreamState
  ntrunc : Int
  intConversion : Bool
  errors : List String
  earlyEnd : Bool
deriving Repr, DecidableEq

/-- Step 5 of `streamStateFromFormat` (lines 169-227): the conversion-character
switch.  At the end of the string the `'\0'` arm reports the bad-termination
error and returns the cursor unmoved; otherwise the character's arm runs and
the cursor moves past it. -/
def convSwitch (cs : List Char) (s : StreamState) (ntrunc : Int) (precisionSet : Bool) :
    ConvResult :=
  match cs with
  | [] =>
      { rest := [], state := s, ntrunc := ntrunc, intConversion := false,
        errors := [errBadTermination], earlyEnd := true }
  | c :: rest =>
      let r := convSwitchChar c s ntrunc precisionSet
      { rest := rest, state := r.state, ntrunc := r.ntrunc,
        intConversion := r.intConversion, errors := r.errors, earlyEnd := false }

/-- Lines 228-237 of `streamStateFromFormat`: for integer conversions with an
explicit precision but no explicit width, reinterpret the precision as a
minimum digit count via width, internal alignment and zero fill. -/
def intPrecisionFixup (s : StreamState) (intConversion precisionSet widthSet : Bool)
    (widthExtra : Int) : StreamState :=
  if intConversion ∧ precisionSet ∧ ¬widthSet then
    { s with width := s.precision + widthExtra, adjust := AdjustField.internal, fill := '0' }
  else s

/-- Lines 66-73 of `streamStateFromFormat`: reset width, precision and fill to
their defaults and clear the relevant flags (unitbuf and skipws, which the code
leaves alone, are not part of the model). -/
def resetStreamState (s : StreamState) : StreamState :=
  { s with
    width := 0, precision := 6, fill := ' ',
    adjust := AdjustField.unset, base := BaseField.unset, floatF := FloatField.unset,
    showbase := false, boolalpha := false, showpoint := false, showpos := false,
    uppercase := false }

/-- Full result of `streamStateFromFormat`: the mutated stream state, the two
side-channel out-parameters, the updated argument index, the cursor just past
the spec, and the reported errors.  The last four fields expose the function's
own locals (`precisionSet`, `widthSet`, `widthExtra`, `intConversion`, lines
74-76 and 169) so that claims about them can be stated. -/
structure FmtResult where
  state : StreamState
  spacePadPositive : Bool
  ntrunc : Int
  argIndex : Nat
  rest : List Char
  errors : List String
  precisionSet : Bool
  widthSet : Bool
  widthExtra : Int
  intConversion : Bool
deriving Repr, DecidableEq

/-- Assemble the result of `streamStateFromFormat` from the phase results.
The `'\0'` switch arm returns the cursor directly (skipping the fixup), which
is what `earlyEnd` records. -/
def assembleSpec (f : FlagResult) (w : WidthResult) (p : PrecResult) (cv : ConvResult) :
    FmtResult :=
  { state := if cv.earlyEnd then cv.state
             else intPrecisionFixup cv.state cv.intConversion p.precisionSet w.widthSet
                    f.widthExtra,
    spacePadPositive := f.spacePadPositive, ntrunc := cv.ntrunc, argIndex := p.argIndex,
    rest := cv.rest, errors := w.errors ++ p.errors ++ cv.errors,
    precisionSet := p.precisionSet, widthSet := w.widthSet, widthExtra := f.widthExtra,
    intConversion := cv.intConversion }

/-- Steps 1-5 of `streamStateFromFormat` after the leading `%` has been seen:
flag loop, width, precision, length modifiers, conversion switch, and the
integer-precision fixup. -/
def specAfterFlags (f : FlagResult) (ntrunc : Int) (args : List Int) (argIndex : Nat) :
    FmtResult :=
  let w := parseWidth f.rest f.state args argIndex
  let p := parsePrecision w.rest w.state args w.argIndex
  let cv := convSwitch (skipLengthModifiers p.rest) p.state ntrunc p.precisionSet
  assembleSpec f w p cv

/-- `streamStateFromFormat` (lines 56-239): parse one format spec starting at
`fmtStart` and mutate the stream state accordingly.  `args` is the list of
`toInt` values of the `formatters` array (`numFormatters = args.length`). -/
def streamStateFromFormat (s : StreamState) (spacePadPositive : Bool) (ntrunc : Int)
    (fmtStart : List Char) (args : List Int) (argIndex : Nat) : FmtResult :=
  if fmtStart.head? = some '%' then
    specAfterFlags (parseFlags fmtStart.tail (resetStreamState s) spacePadPositive 0)
      ntrunc args argIndex
  else
    { state := s, spacePadPositive := spacePadPositive, ntrunc := ntrunc,
      argIndex := argIndex, rest := fmtStart, errors := [errNotEnoughSpecifiers],
      precisionSet := false, widthSet := false, widthExtra := 0, intConversion := false }

/-- One observable step of a formatting call: text written to the destination
stream by the core, an argument handed to its render capability (with the
stream state, `ntrunc` and the space-pad-positive marker the core passes), or
a reported error. -/
inductive Event
  | out (text : List Char)
  | render (argIndex : Nat) (state : StreamState) (ntrunc : Int) (spacePadPositive : Bool)
  | err (msg : String)
deriving Repr, DecidableEq

/-- The error messages reported during a trace, in order. -/
def eventErrors : List Event → List String
  | [] => []
  | Event.err m :: rest => m :: eventErrors rest
  | _ :: rest => eventErrors rest

/-- Result of the argument loop of `formatImpl`: the trace so far, the stream
state, the cursor, and whether the loop hit the early `return` of the
"Not enough format arguments" error (line 265). -/
structure LoopResult where
  events : List Event
  state : StreamState
  fmt : List Char
  earlyReturn : Bool
deriving Repr, DecidableEq

/-- The `for (int argIndex = 0; argIndex < numFormatters; ++argIndex)` loop of
`formatImpl` (lines 253-287).  `fuel` bounds the number of iterations; the top
call passes `args.length`, which suffices because `argIndex` strictly
increases on every iteration. -/
def formatLoop (args : List Int) : Nat → Nat → StreamState → List Char → List Event →
    LoopResult
  | 0, _, s, fmt, acc => { events := acc, state := s, fmt := fmt, earlyReturn := false }
  | fuel + 1, argIndex, s, fmt, acc =>
      if argIndex < args.length then
        let lit := printFormatStringLiteral fmt
        let r := streamStateFromFormat s false (-1) lit.2 args argIndex
        let acc1 := acc ++ [Event.out lit.1] ++ r.errors.map Event.err
        if args.length ≤ r.argIndex then
          -- check args remain after reading any variable width/precision
          { events := acc1 ++ [Event.err errNotEnoughFormatArgs], state := r.state,
            fmt := r.rest, earlyReturn := true }
        else
          formatLoop args fuel (r.argIndex + 1) r.state r.rest
            (acc1 ++ [Event.render r.argIndex r.state r.ntrunc r.spacePadPositive])
      else
        { events := acc, state := s, fmt := fmt, earlyReturn := false }

/-- Lines 294-298 of `formatImpl`: write the saved width, precision, flags and
fill back into the stream. -/
def restoreStreamState (current saved : StreamState) : StreamState :=
  { current with
    width := saved.width, precision := saved.precision, fill := saved.fill,
    adjust := saved.adjust, base := saved.base, floatF := saved.floatF,
    showbase := saved.showbase, showpoint := saved.showpoint, showpos := saved.showpos,
    uppercase := saved.uppercase, boolalpha := saved.boolalpha }

/-- Observable outcome of `formatImpl`: the event trace and the stream's
formatting configuration when the call returns. -/
structure FormatOutcome where
  events : List Event
  state : StreamState
deriving Repr, DecidableEq

/-- `formatImpl` (lines 243-299): save the stream configuration, run the
argument loop, emit the trailing literal, report leftover specifiers, and
restore the configuration — except on the "Not enough format arguments" path,
whose `return` (line 265) leaves the function before the restore. -/
def formatImpl (s : StreamState) (fmt : List Char) (args : List Int) : FormatOutcome :=
  let lr := formatLoop args args.length 0 s fmt []
  if lr.earlyReturn then
    { events := lr.events, state := lr.state }
  else
    let lit := printFormatStringLiteral lr.fmt
    let ev1 := lr.events ++ [Event.out lit.1]
    let ev2 := if lit.2 ≠ [] then ev1 ++ [Event.err errTooManySpecifiers] else ev1
    { events := ev2, state := restoreStreamState lr.state s }

/-! ### Helper lemmas -/

theorem restoreStreamState_eq (c s : StreamState) : restoreStreamState c s = s := rfl

theorem eventErrors_append (a b : List Event) :
    eventErrors (a ++ b) = eventErrors a ++ eventErrors b := by
  induction a with
  | nil => rfl
  | cons e rest ih => cases e <;> simp [eventErrors, ih]

theorem formatLoop_early_mem (args : List Int) (fuel : Nat) :
    ∀ (argIndex : Nat) (s : StreamState) (fmt : List Char) (acc : List Event),
      (formatLoop args fuel argIndex s fmt acc).earlyReturn = true →
      errNotEnoughFormatArgs ∈ eventErrors (formatLoop args fuel argIndex s fmt acc).events := by
  induction fuel with
  | zero =>
      intro argIndex s fmt acc h
      simp [formatLoop] at h
  | succ n ih =>
      intro argIndex s fmt acc h
      rw [formatLoop] at h ⊢
      by_cases hlt : argIndex < args.length
      · rw [if_pos hlt] at h ⊢
        by_cases hge : args.length ≤
            (streamStateFromFormat s false (-1) (printFormatStringLiteral fmt).2 args
              argIndex).argIndex
        · rw [if_pos hge] at h ⊢
          simp [eventErrors_append, eventErrors]
        · rw [if_neg hge] at h ⊢
          exact ih _ _ _ _ h
      · rw [if_neg hlt] at h
        simp at h

theorem printFormatStringLiteral_cons_ne (ch : Char) (rest : List Char) (h : ch ≠ '%') :
    printFormatStringLiteral (ch :: rest) =
      (ch :: (printFormatStringLiteral rest).1, (printFormatStringLiteral rest).2) := by
  cases rest with
  | nil => simp only [printFormatStringLiteral, if_neg h]
  | cons c2 t => simp only [printFormatStringLiteral, if_neg h]

theorem printFormatStringLiteral_percent_percent (rest : List Char) :
    printFormatStringLiteral ('%' :: '%' :: rest) =
      ('%' :: (printFormatStringLiteral rest).1, (printFormatStringLiteral rest).2) := rfl

theorem printFormatStringLiteral_percent_stop (rest : List Char)
    (h : rest.head? ≠ some '%') :
    printFormatStringLiteral ('%' :: rest) = ([], '%' :: rest) := by
  cases rest with
  | nil => rfl
  | cons c2 t =>
      have hc : c2 ≠ '%' := by simpa using h
      simp only [printFormatStringLiteral, if_pos rfl, if_neg hc]
      simp

theorem printFormatStringLiteral_no_percent {l : List Char} (h : '%' ∉ l) :
    printFormatStringLiteral l = (l, []) := by
  induction l with
  | nil => rfl
  | cons c t ih =>
      rw [List.mem_cons, not_or] at h
      have hc : c ≠ '%' := fun hc => h.1 hc.symm
      rw [printFormatStringLiteral_cons_ne c t hc, ih h.2]

theorem parseFlags_spacePadPositive (cs : List Char) :
    ∀ (s : StreamState) (spp : Bool) (we : Int),
      ((parseFlags cs s spp we).spacePadPositive = true ↔
        ('+' ∉ cs.takeWhile isFlagChar ∧
          (spp = true ∨ (' ' ∈ cs.takeWhile isFlagChar ∧ s.showpos = false)))) := by
  induction cs with
  | nil => intro s spp we; simp [parseFlags]
  | cons c t ih =>
      intro s spp we
      by_cases h1 : c = '#'
      · subst h1
        rw [show parseFlags ('#' :: t) s spp we =
              parseFlags t { s with showpoint := true, showbase := true } spp we from rfl]
        rw [ih]
        simp [List.takeWhile_cons, isFlagChar]
      · by_cases h2 : c = '0'
        · subst h2
          by_cases ha : s.adjust = AdjustField.left
          · rw [show parseFlags ('0' :: t) s spp we =
                  (if s.adjust = AdjustField.left then parseFlags t s spp we
                   else parseFlags t
                     { s with fill := '0', adjust := AdjustField.internal } spp we) from rfl,
               if_pos ha, ih]
            simp [List.takeWhile_cons, isFlagChar]
          · rw [show parseFlags ('0' :: t) s spp we =
                  (if s.adjust = AdjustField.left then parseFlags t s spp we
                   else parseFlags t
                     { s with fill := '0', adjust := AdjustField.internal } spp we) from rfl,
               if_neg ha, ih]
            simp [List.takeWhile_cons, isFlagChar]
        · by_cases h3 : c = '-'
          · subst h3
            rw [show parseFlags ('-' :: t) s spp we =
                  parseFlags t { s with fill := ' ', adjust := AdjustField.left } spp we
                  from rfl]
            rw [ih]
            simp [List.takeWhile_cons, isFlagChar]
          · by_cases h4 : c = ' '
            · subst h4
              by_cases hsp : s.showpos
              · rw [show parseFlags (' ' :: t) s spp we =
                      (if s.showpos then parseFlags t s spp we
                       else parseFlags t s true we) from rfl,
                   if_pos hsp, ih]
                simp [List.takeWhile_cons, isFlagChar, hsp]
              · rw [show parseFlags (' ' :: t) s spp we =
                      (if s.showpos then parseFlags t s spp we
                       else parseFlags t s true we) from rfl,
                   if_neg hsp, ih]
                simp only [Bool.not_eq_true] at hsp
                simp [List.takeWhile_cons, isFlagChar, hsp]
            · by_cases h5 : c = '+'
              · subst h5
                rw [show parseFlags ('+' :: t) s spp we =
                      parseFlags t { s with showpos := true } false 1 from rfl]
                rw [ih]
                simp [List.takeWhile_cons, isFlagChar]
              · have hfl : isFlagChar c = false := by
                  simp [isFlagChar, h1, h2, h3, h4, h5]
                rw [show parseFlags (c :: t) s spp we =
                      { rest := c :: t, state := s, spacePadPositive := spp,
                        widthExtra := we } from by
                      simp [parseFlags, h1, h2, h3, h4, h5]]
                simp [List.takeWhile_cons, hfl]

theorem parseFlags_widthExtra (cs : List Char) :
    ∀ (s : StreamState) (spp : Bool) (we : Int),
      (parseFlags cs s spp we).widthExtra =
        if '+' ∈ cs.takeWhile isFlagChar then 1 else we := by
  induction cs with
  | nil => intro s spp we; simp [parseFlags]
  | cons c t ih =>
      intro s spp we
      by_cases h1 : c = '#'
      · subst h1
        rw [show parseFlags ('#' :: t) s spp we =
              parseFlags t { s with showpoint := true, showbase := true } spp we from rfl]
        rw [ih]
        simp [List.takeWhile_cons, isFlagChar]
      · by_cases h2 : c = '0'
        · subst h2
          by_cases ha : s.adjust = AdjustField.left
          · rw [show parseFlags ('0' :: t) s spp we =
                  (if s.adjust = AdjustField.left then parseFlags t s spp we
                   else parseFlags t
                     { s with fill := '0', adjust := AdjustField.internal } spp we) from rfl,
               if_pos ha, ih]
            simp [List.takeWhile_cons, isFlagChar]
          · rw [show parseFlags ('0' :: t) s spp we =
                  (if s.adjust = AdjustField.left then parseFlags t s spp we
                   else parseFlags t
                     { s with fill := '0', adjust := AdjustField.internal } spp we) from rfl,
               if_neg ha, ih]
            simp [List.takeWhile_cons, isFlagChar]
        · by_cases h3 : c = '-'
          · subst h3
            rw [show parseFlags ('-' :: t) s spp we =
                  parseFlags t { s with fill := ' ', adjust := AdjustField.left } spp we
                  from rfl]
            rw [ih]
            simp [List.takeWhile_cons, isFlagChar]
          · by_cases h4 : c = ' '
            · subst h4
              by_cases hsp : s.showpos
              · rw [show parseFlags (' ' :: t) s spp we =
                      (if s.showpos then parseFlags t s spp we
                       else parseFlags t s true we) from rfl,
                   if_pos hsp, ih]
                simp [List.takeWhile_cons, isFlagChar]
              · rw [show parseFlags (' ' :: t) s spp we =
                      (if s.showpos then parseFlags t s spp we
                       else parseFlags t s true we) from rfl,
                   if_neg hsp, ih]
                simp [List.takeWhile_cons, isFlagChar]
            · by_cases h5 : c = '+'
              · subst h5
                rw [show parseFlags ('+' :: t) s spp we =
                      parseFlags t { s with showpos := true } false 1 from rfl]
                rw [ih]
                simp [List.takeWhile_cons, isFlagChar]
              · have hfl : isFlagChar c = false := by
                  simp [isFlagChar, h1, h2, h3, h4, h5]
                rw [show parseFlags (c :: t) s spp we =
                      { rest := c :: t, state := s, spacePadPositive := spp,
                        widthExtra := we } from by
                      simp [parseFlags, h1, h2, h3, h4, h5]]
                simp [List.takeWhile_cons, hfl]

theorem parseFlags_precision (cs : List Char) :
    ∀ (s : StreamState) (spp : Bool) (we : Int),
      (parseFlags cs s spp we).state.precision = s.precision := by
  induction cs with
  | nil => intro s spp we; rfl
  | cons c t ih =>
      intro s spp we
      by_cases h1 : c = '#'
      · subst h1
        rw [show parseFlags ('#' :: t) s spp we =
              parseFlags t { s with showpoint := true, showbase := true } spp we from rfl,
           ih]
      · by_cases h2 : c = '0'
        · subst h2
          by_cases ha : s.adjust = AdjustField.left
          · rw [show parseFlags ('0' :: t) s spp we =
                  (if s.adjust = AdjustField.left then parseFlags t s spp we
                   else parseFlags t
                     { s with fill := '0', adjust := AdjustField.internal } spp we) from rfl,
               if_pos ha, ih]
          · rw [show parseFlags ('0' :: t) s spp we =
                  (if s.adjust = AdjustField.left then parseFlags t s spp we
                   else parseFlags t
                     { s with fill := '0', adjust := AdjustField.internal } spp we) from rfl,
               if_neg ha, ih]
        · by_cases h3 : c = '-'
          · subst h3
            rw [show parseFlags ('-' :: t) s spp we =
                  parseFlags t { s with fill := ' ', adjust := AdjustField.left } spp we
                  from rfl, ih]
          · by_cases h4 : c = ' '
            · subst h4
              by_cases hsp : s.showpos
              · rw [show parseFlags (' ' :: t) s spp we =
                      (if s.showpos then parseFlags t s spp we
                       else parseFlags t s true we) from rfl, if_pos hsp, ih]
              · rw [show parseFlags (' ' :: t) s spp we =
                      (if s.showpos then parseFlags t s spp we
                       else parseFlags t s true we) from rfl, if_neg hsp, ih]
            · by_cases h5 : c = '+'
              · subst h5
                rw [show parseFlags ('+' :: t) s spp we =
                      parseFlags t { s with showpos := true } false 1 from rfl, ih]
              · rw [show parseFlags (c :: t) s spp we =
                      { rest := c :: t, state := s, spacePadPositive := spp,
                        widthExtra := we } from by
                      simp [parseFlags, h1, h2, h3, h4, h5]]

theorem parseIntLoop_snd (cs : List Char) :
    ∀ i : Int, (parseIntLoop i cs).2 = cs.dropWhile Char.isDigit := by
  induction cs with
  | nil => intro i; rfl
  | cons c t ih =>
      intro i
      by_cases hd : c.isDigit
      · rw [show parseIntLoop i (c :: t) =
              (if c.isDigit then
                parseIntLoop (10 * i + ((c.toNat : Int) - ('0'.toNat : Int))) t
               else (i, c :: t)) from rfl, if_pos hd, ih]
        simp [List.dropWhile_cons, hd]
      · rw [show parseIntLoop i (c :: t) =
              (if c.isDigit then
                parseIntLoop (10 * i + ((c.toNat : Int) - ('0'.toNat : Int))) t
               else (i, c :: t)) from rfl, if_neg hd]
        simp [List.dropWhile_cons, hd]

theorem parseIntAndAdvance_snd (cs : List Char) :
    (parseIntAndAdvance cs).2 = cs.dropWhile Char.isDigit :=
  parseIntLoop_snd cs 0

theorem parseWidthLiteral_precision (cs : List Char) (s : StreamState) :
    (parseWidthLiteral cs s).2.1.precision = s.precision := by
  unfold parseWidthLiteral
  by_cases h : headDigit cs = true
  · rw [if_pos h]
  · rw [if_neg h]

theorem parseWidthStar_precision (cs : List Char) (s : StreamState) (ws : Bool)
    (args : List Int) (i : Nat) :
    (parseWidthStar cs s ws args i).state.precision = s.precision := by
  cases cs with
  | nil => rfl
  | cons c rest =>
      simp only [parseWidthStar]
      by_cases hc : c = '*'
      · rw [if_pos hc]
        by_cases hlt : i < args.length
        · rw [if_pos hlt]
          by_cases hneg : args.getD i 0 < 0
          · rw [if_pos hneg]
          · rw [if_neg hneg]
        · rw [if_neg hlt]
      · rw [if_neg hc]

theorem parseWidth_precision (cs : List Char) (s : StreamState) (args : List Int)
    (i : Nat) :
    (parseWidth cs s args i).state.precision = s.precision := by
  unfold parseWidth
  rw [parseWidthStar_precision, parseWidthLiteral_precision]

theorem parsePrecision_not_set (cs : List Char) (s : StreamState) (args : List Int)
    (i : Nat) (h : (parsePrecision cs s args i).precisionSet = false) :
    (parsePrecision cs s args i).state = s := by
  cases cs with
  | nil => rfl
  | cons c cs1 =>
      by_cases hc : c = '.'
      · exfalso
        subst hc
        cases cs1 with
        | nil => simp [parsePrecision] at h
        | cons c2 cs2 =>
            rw [show parsePrecision ('.' :: c2 :: cs2) s args i =
                  (if c2 = '*' then
                    (if i < args.length then
                      { rest := cs2, state := { s with precision := args.getD i 0 },
                        precisionSet := true, argIndex := i + 1, errors := [] }
                     else
                      { rest := cs2, state := { s with precision := 0 },
                        precisionSet := true, argIndex := i,
                        errors := [errNotEnoughArgsPrecision] })
                   else if c2.isDigit then
                    { rest := (parseIntAndAdvance (c2 :: cs2)).2,
                      state := { s with precision := (parseIntAndAdvance (c2 :: cs2)).1 },
                      precisionSet := true, argIndex := i, errors := [] }
                   else if c2 = '-' then
                    { rest := (parseIntAndAdvance cs2).2,
                      state := { s with precision := 0 }, precisionSet := true,
                      argIndex := i, errors := [] }
                   else
                    { rest := c2 :: cs2, state := { s with precision := 0 },
                      precisionSet := true, argIndex := i, errors := [] }) from rfl] at h
            simp [apply_ite PrecResult.precisionSet] at h
      · rw [show parsePrecision (c :: cs1) s args i =
              { rest := c :: cs1, state := s, precisionSet := false, argIndex := i,
                errors := [] } from by
            simp [parsePrecision, hc]]

theorem intPrecisionFixup_precision (s : StreamState) (ic ps ws : Bool) (we : Int) :
    (intPrecisionFixup s ic ps ws we).precision = s.precision := by
  unfold intPrecisionFixup
  by_cases h : ic = true ∧ ps = true ∧ ¬ws = true
  · rw [if_pos h]
  · rw [if_neg h]

theorem convSwitchChar_spec (c : Char) (s : StreamState) (nt : Int) (ps : Bool) :
    (convSwitchChar c s nt ps).state.precision = s.precision ∧
      ((convSwitchChar c s nt ps).ntrunc = nt ∨
        (ps = true ∧ (convSwitchChar c s nt ps).ntrunc = s.precision)) := by
  unfold convSwitchChar
  by_cases h1 : c = 'u' ∨ c = 'd' ∨ c = 'i'
  · rw [if_pos h1]; exact ⟨rfl, Or.inl rfl⟩
  rw [if_neg h1]
  by_cases h2 : c = 'o'
  · rw [if_pos h2]; exact ⟨rfl, Or.inl rfl⟩
  rw [if_neg h2]
  by_cases h3 : c = 'X'
  · rw [if_pos h3]; exact ⟨rfl, Or.inl rfl⟩
  rw [if_neg h3]
  by_cases h4 : c = 'x' ∨ c = 'p'
  · rw [if_pos h4]; exact ⟨rfl, Or.inl rfl⟩
  rw [if_neg h4]
  by_cases h5 : c = 'E'
  · rw [if_pos h5]; exact ⟨rfl, Or.inl rfl⟩
  rw [if_neg h5]
  by_cases h6 : c = 'e'
  · rw [if_pos h6]; exact ⟨rfl, Or.inl rfl⟩
  rw [if_neg h6]
  by_cases h7 : c = 'F'
  · rw [if_pos h7]; exact ⟨rfl, Or.inl rfl⟩
  rw [if_neg h7]
  by_cases h8 : c = 'f'
  · rw [if_pos h8]; exact ⟨rfl, Or.inl rfl⟩
  rw [if_neg h8]
  by_cases h9 : c = 'G'
  · rw [if_pos h9]; exact ⟨rfl, Or.inl rfl⟩
  rw [if_neg h9]
  by_cases h10 : c = 'g'
  · rw [if_pos h10]; exact ⟨rfl, Or.inl rfl⟩
  rw [if_neg h10]
  by_cases h11 : c = 'a' ∨ c = 'A'
  · rw [if_pos h11]; exact ⟨rfl, Or.inl rfl⟩
  rw [if_neg h11]
  by_cases h12 : c = 'c'
  · rw [if_pos h12]; exact ⟨rfl, Or.inl rfl⟩
  rw [if_neg h12]
  by_cases h13 : c = 's'
  · rw [if_pos h13]
    refine ⟨rfl, ?_⟩
    by_cases hps : ps = true
    · right
      refine ⟨hps, ?_⟩
      show (if ps = true then s.precision else nt) = s.precision
      rw [if_pos hps]
    · left
      show (if ps = true then s.precision else nt) = nt
      rw [if_neg hps]
  rw [if_neg h13]
  by_cases h14 : c = 'n'
  · rw [if_pos h14]; exact ⟨rfl, Or.inl rfl⟩
  rw [if_neg h14]
  exact ⟨rfl, Or.inl rfl⟩

theorem convSwitchChar_intConversion_iff (c : Char) (s : StreamState) (nt : Int)
    (ps : Bool) :
    ((convSwitchChar c s nt ps).intConversion = true ↔
      (c = 'u' ∨ c = 'd' ∨ c = 'i' ∨ c = 'o' ∨ c = 'X' ∨ c = 'x' ∨ c = 'p')) := by
  unfold convSwitchChar
  by_cases h1 : c = 'u' ∨ c = 'd' ∨ c = 'i'
  · rw [if_pos h1]
    exact iff_of_true rfl (by tauto)
  rw [if_neg h1]
  by_cases h2 : c = 'o'
  · rw [if_pos h2]
    exact iff_of_true rfl (by tauto)
  rw [if_neg h2]
  by_cases h3 : c = 'X'
  · rw [if_pos h3]
    exact iff_of_true rfl (by tauto)
  rw [if_neg h3]
  by_cases h4 : c = 'x' ∨ c = 'p'
  · rw [if_pos h4]
    exact iff_of_true rfl (by tauto)
  rw [if_neg h4]
  simp only [apply_ite ConvCharResult.intConversion]
  simp
  tauto

theorem convSwitchChar_unrecognized (c : Char) (s : StreamState) (nt : Int) (ps : Bool)
    (h : c ∉ recognizedConvChars) :
    convSwitchChar c s nt ps =
      { state := s, ntrunc := nt, intConversion := false, errors := [] } := by
  have h' : c ≠ 'd' ∧ c ≠ 'i' ∧ c ≠ 'u' ∧ c ≠ 'o' ∧ c ≠ 'x' ∧ c ≠ 'X' ∧ c ≠ 'p' ∧
      c ≠ 'e' ∧ c ≠ 'E' ∧ c ≠ 'f' ∧ c ≠ 'F' ∧ c ≠ 'g' ∧ c ≠ 'G' ∧ c ≠ 'c' ∧ c ≠ 's' ∧
      c ≠ 'a' ∧ c ≠ 'A' ∧ c ≠ 'n' := by
    simpa [recognizedConvChars, not_or] using h
  obtain ⟨hd, hi, hu, ho, hx, hX, hp, he, hE, hf, hF, hg, hG, hcc, hs, ha, hA, hn⟩ := h'
  unfold convSwitchChar
  rw [if_neg (by simp [hu, hd, hi]), if_neg ho, if_neg hX, if_neg (by simp [hx, hp]),
    if_neg hE, if_neg he, if_neg hF, if_neg hf, if_neg hG, if_neg hg,
    if_neg (by simp [ha, hA]), if_neg hcc, if_neg hs, if_neg hn]

theorem convSwitch_state_precision (cs : List Char) (s : StreamState) (nt : Int)
    (ps : Bool) :
    (convSwitch cs s nt ps).state.precision = s.precision := by
  cases cs with
  | nil => rfl
  | cons c rest => exact (convSwitchChar_spec c s nt ps).1

theorem convSwitch_ntrunc (cs : List Char) (s : StreamState) (nt : Int) (ps : Bool) :
    (convSwitch cs s nt ps).ntrunc = nt ∨
      (ps = true ∧ (convSwitch cs s nt ps).ntrunc = s.precision) := by
  cases cs with
  | nil => exact Or.inl rfl
  | cons c rest => exact (convSwitchChar_spec c s nt ps).2

theorem specAfterFlags_spacePadPositive (f : FlagResult) (nt : Int) (args : List Int)
    (i : Nat) :
    (specAfterFlags f nt args i).spacePadPositive = f.spacePadPositive := rfl

theorem specAfterFlags_widthExtra (f : FlagResult) (nt : Int) (args : List Int) (i : Nat) :
    (specAfterFlags f nt args i).widthExtra = f.widthExtra := rfl

theorem convSwitch_intConversion_earlyEnd (cs : List Char) (s : StreamState) (nt : Int)
    (ps : Bool) (h : (convSwitch cs s nt ps).intConversion = true) :
    (convSwitch cs s nt ps).earlyEnd = false := by
  cases cs with
  | nil => simp [convSwitch] at h
  | cons c rest => rfl

theorem assembleSpec_c4 (f : FlagResult) (w : WidthResult) (p : PrecResult)
    (cv : ConvResult) (hee : cv.earlyEnd = false) (h1 : cv.intConversion = true)
    (h2 : p.precisionSet = true) (h3 : w.widthSet = false) :
    (assembleSpec f w p cv).state.width =
        (assembleSpec f w p cv).state.precision + f.widthExtra ∧
      (assembleSpec f w p cv).state.fill = '0' ∧
      (assembleSpec f w p cv).state.adjust = AdjustField.internal := by
  have hst : (assembleSpec f w p cv).state =
      intPrecisionFixup cv.state cv.intConversion p.precisionSet w.widthSet f.widthExtra := by
    rw [show (assembleSpec f w p cv).state =
          (if cv.earlyEnd then cv.state
           else intPrecisionFixup cv.state cv.intConversion p.precisionSet w.widthSet
                  f.widthExtra) from rfl, hee]
    simp
  rw [hst, h1, h2, h3]
  simp [intPrecisionFixup]

theorem assembleSpec_ntrunc (f : FlagResult) (w : WidthResult) (p : PrecResult)
    (cv : ConvResult) : (assembleSpec f w p cv).ntrunc = cv.ntrunc := rfl

theorem assembleSpec_precisionSet (f : FlagResult) (w : WidthResult) (p : PrecResult)
    (cv : ConvResult) : (assembleSpec f w p cv).precisionSet = p.precisionSet := rfl

theorem assembleSpec_state_precision (f : FlagResult) (w : WidthResult) (p : PrecResult)
    (cv : ConvResult) :
    (assembleSpec f w p cv).state.precision = cv.state.precision := by
  rw [show (assembleSpec f w p cv).state =
        (if cv.earlyEnd then cv.state
         else intPrecisionFixup cv.state cv.intConversion p.precisionSet w.widthSet
                f.widthExtra) from rfl]
  by_cases h : cv.earlyEnd = true
  · rw [if_pos h]
  · rw [if_neg h, intPrecisionFixup_precision]

theorem specAfterFlags_fields (f : FlagResult) (nt : Int) (args : List Int) (i : Nat) :
    ∃ (w : WidthResult) (p : PrecResult) (cv : ConvResult),
      specAfterFlags f nt args i = assembleSpec f w p cv ∧
        w = parseWidth f.rest f.state args i ∧
        p = parsePrecision w.rest w.state args w.argIndex ∧
        cv = convSwitch (skipLengthModifiers p.rest) p.state nt p.precisionSet :=
  ⟨_, _, _, rfl, rfl, rfl, rfl⟩

theorem specAfterFlags_c4 (f : FlagResult) (nt : Int) (args : List Int) (i : Nat)
    (h1 : (specAfterFlags f nt args i).intConversion = true)
    (h2 : (specAfterFlags f nt args i).precisionSet = true)
    (h3 : (specAfterFlags f nt args i).widthSet = false) :
    (specAfterFlags f nt args i).state.width =
        (specAfterFlags f nt args i).state.precision + f.widthExtra ∧
      (specAfterFlags f nt args i).state.fill = '0' ∧
      (specAfterFlags f nt args i).state.adjust = AdjustField.internal := by
  refine assembleSpec_c4 f _ _ _ ?_ h1 h2 h3
  exact convSwitch_intConversion_earlyEnd _ _ _ _ h1

/-! ### Claim theorems -/

/-- C1 (amended): the stream's formatting configuration observed after
`formatImpl` returns equals the configuration observed before the call on
every exit path except the "Not enough format arguments" failure, whose early
`return` (line 265) leaves the function before the restore code. -/
theorem c1_state_restored_except_arg_exhaustion (s : StreamState) (fmt : List Char)
    (args : List Int) :
    (formatImpl s fmt args).state = s ∨
      errNotEnoughFormatArgs ∈ eventErrors (formatImpl s fmt args).events := by
  unfold formatImpl
  by_cases h : (formatLoop args args.length 0 s fmt []).earlyReturn = true
  · right
    rw [if_pos h]
    exact formatLoop_early_mem args args.length 0 s fmt [] h
  · left
    rw [if_neg h]
    exact restoreStreamState_eq (formatLoop args args.length 0 s fmt []).state s

/-- C1 counterexample: on the format string "%*d" with one argument (consumed
by the variable width), the "Not enough format arguments" error is reported
and the stream's configuration after the call differs from the configuration
before it (the caller's precision 10 has been replaced by the reset value 6). -/
theorem c1_counterexample :
    errNotEnoughFormatArgs ∈
        eventErrors (formatImpl precTenStream ['%', '*', 'd'] [1]).events ∧
      (formatImpl precTenStream ['%', '*', 'd'] [1]).state ≠ precTenStream := by
  decide

/-- C2 (amended): on the format string "%d %d" with exactly one argument,
`formatImpl` reports exactly the "Too many conversion specifiers in format
string" error (the leftover-specifier check of lines 289-292, which is how
fewer arguments than specifiers is diagnosed), after the one specifier has
been applied, its argument rendered and the literal " " emitted; the stream
configuration is restored. -/
theorem c2_reports_too_many_specifiers (s : StreamState) (a : Int) :
    formatImpl s ['%', 'd', ' ', '%', 'd'] [a] =
      { events := [Event.out [], Event.render 0 defaultStream (-1) false,
                   Event.out [' '], Event.err errTooManySpecifiers],
        state := s } := rfl

/-- C2 counterexample: on "%d %d" with one argument the only reported error is
"Too many conversion specifiers in format string"; the "Not enough format
arguments" error (the count-mismatch error named by the claim, lines 259-266)
is not reported. -/
theorem c2_counterexample :
    eventErrors (formatImpl defaultStream ['%', 'd', ' ', '%', 'd'] [0]).events
        = [errTooManySpecifiers] ∧
      errNotEnoughFormatArgs ∉
        eventErrors (formatImpl defaultStream ['%', 'd', ' ', '%', 'd'] [0]).events := by
  decide

/-- C3 (amended): on the format string "%d" with exactly two arguments,
`formatImpl` reports the "Not enough conversion specifiers in format string"
error (line 63, raised when the second iteration finds no specifier), and only
after the one specifier has been fully applied, its argument rendered and the
(empty) literal suffix emitted; the second argument is rendered after the
error and the stream configuration is restored. -/
theorem c3_reports_not_enough_specifiers (s : StreamState) (a b : Int) :
    formatImpl s ['%', 'd'] [a, b] =
      { events := [Event.out [], Event.render 0 defaultStream (-1) false, Event.out [],
                   Event.err errNotEnoughSpecifiers,
                   Event.render 1 defaultStream (-1) false, Event.out []],
        state := s } := rfl

/-- C3 counterexample: on "%d" with two arguments the too-many-specifiers
error named by the claim is not reported; the only reported error is "Not
enough conversion specifiers in format string". -/
theorem c3_counterexample :
    errTooManySpecifiers ∉
        eventErrors (formatImpl defaultStream ['%', 'd'] [0, 0]).events ∧
      eventErrors (formatImpl defaultStream ['%', 'd'] [0, 0]).events
        = [errNotEnoughSpecifiers] := by
  decide

/-- C9: a format string containing no '%' character, formatted with an empty
argument list, is written to the output exactly, character for character, with
no error reported (and the stream configuration is restored). -/
theorem c9_literal_passthrough (s : StreamState) (l : List Char) (h : '%' ∉ l) :
    formatImpl s l [] = { events := [Event.out l], state := s } := by
  unfold formatImpl
  simp [formatLoop, printFormatStringLiteral_no_percent h, restoreStreamState_eq]

/-- C9 witness: the percent-free string "abc" is emitted verbatim. -/
theorem c9_witness :
    formatImpl defaultStream ['a', 'b', 'c'] [] =
      { events := [Event.out ['a', 'b', 'c']], state := defaultStream } :=
  c9_literal_passthrough defaultStream ['a', 'b', 'c'] (by decide)

/-- C5: for every specifier, the `spacePadPositive` out-parameter produced by
`streamStateFromFormat` (which is set only during flag parsing, with the
initial `false` that `formatImpl` passes) is true if and only if the flag run
contains a space character and no '+' character, in whichever order the two
flags appear. -/
theorem c5_space_pad_positive (s : StreamState) (nt : Int) (cs : List Char)
    (args : List Int) (i : Nat) :
    ((streamStateFromFormat s false nt ('%' :: cs) args i).spacePadPositive = true ↔
      (' ' ∈ cs.takeWhile isFlagChar ∧ '+' ∉ cs.takeWhile isFlagChar)) := by
  have hopen : streamStateFromFormat s false nt ('%' :: cs) args i =
      specAfterFlags (parseFlags cs (resetStreamState s) false 0) nt args i := rfl
  rw [hopen, specAfterFlags_spacePadPositive, parseFlags_spacePadPositive]
  have hsp : (resetStreamState s).showpos = false := rfl
  rw [hsp]
  constructor
  · rintro ⟨hplus, hrest⟩
    rcases hrest with h | ⟨hsp2, _⟩
    · exact absurd h (by simp)
    · exact ⟨hsp2, hplus⟩
  · rintro ⟨hsp2, hplus⟩
    exact ⟨hplus, Or.inr ⟨hsp2, rfl⟩⟩

/-- C4: when the conversion character is in the integer family, a precision
was explicitly given and no width was given, `streamStateFromFormat` sets the
stream width to precision plus 1 if the '+' flag was seen (plus 0 otherwise),
with fill character '0' and internal alignment forced. -/
theorem c4_integer_precision_as_width (s : StreamState) (nt : Int) (cs : List Char)
    (args : List Int) (i : Nat)
    (h1 : (streamStateFromFormat s false nt ('%' :: cs) args i).intConversion = true)
    (h2 : (streamStateFromFormat s false nt ('%' :: cs) args i).precisionSet = true)
    (h3 : (streamStateFromFormat s false nt ('%' :: cs) args i).widthSet = false) :
    (streamStateFromFormat s false nt ('%' :: cs) args i).state.width =
        (streamStateFromFormat s false nt ('%' :: cs) args i).state.precision +
          (if '+' ∈ cs.takeWhile isFlagChar then 1 else 0) ∧
      (streamStateFromFormat s false nt ('%' :: cs) args i).state.fill = '0' ∧
      (streamStateFromFormat s false nt ('%' :: cs) args i).state.adjust =
        AdjustField.internal := by
  have hopen : streamStateFromFormat s false nt ('%' :: cs) args i =
      specAfterFlags (parseFlags cs (resetStreamState s) false 0) nt args i := rfl
  rw [hopen] at h1 h2 h3 ⊢
  have hwe : (parseFlags cs (resetStreamState s) false 0).widthExtra =
      if '+' ∈ cs.takeWhile isFlagChar then 1 else 0 :=
    parseFlags_widthExtra cs (resetStreamState s) false 0
  rw [← hwe]
  exact specAfterFlags_c4 _ nt args i h1 h2 h3

/-- C4 witness: on the specifier "%+.5d" the stream ends up with width 6
(precision 5 plus 1 for the '+' flag), fill '0' and internal alignment. -/
theorem c4_witness :
    (streamStateFromFormat defaultStream false (-1) ('%' :: ['+', '.', '5', 'd'])
          [] 0).state.width =
        (streamStateFromFormat defaultStream false (-1) ('%' :: ['+', '.', '5', 'd'])
            [] 0).state.precision +
          (if '+' ∈ (['+', '.', '5', 'd'] : List Char).takeWhile isFlagChar then 1
           else 0) ∧
      (streamStateFromFormat defaultStream false (-1) ('%' :: ['+', '.', '5', 'd'])
          [] 0).state.fill = '0' ∧
      (streamStateFromFormat defaultStream false (-1) ('%' :: ['+', '.', '5', 'd'])
          [] 0).state.adjust = AdjustField.internal :=
  c4_integer_precision_as_width defaultStream (-1) ['+', '.', '5', 'd'] [] 0
    (by decide) (by decide) (by decide)

/-- C6: "%%" always emits exactly one literal '%' (scanning continues after
the pair); a run of 2N consecutive '%' characters contributes exactly N
literal '%' characters to the output, scanning continuing after the run; and
an odd-length run whose successor is not '%' emits N literal '%' and leaves
the final '%' as the returned start of a real specifier. -/
theorem c6_percent_runs :
    (∀ rest : List Char,
        printFormatStringLiteral ('%' :: '%' :: rest) =
          ('%' :: (printFormatStringLiteral rest).1, (printFormatStringLiteral rest).2)) ∧
      (∀ (n : Nat) (rest : List Char),
        printFormatStringLiteral (List.replicate (2 * n) '%' ++ rest) =
          (List.replicate n '%' ++ (printFormatStringLiteral rest).1,
            (printFormatStringLiteral rest).2)) ∧
      (∀ (n : Nat) (rest : List Char), rest.head? ≠ some '%' →
        printFormatStringLiteral (List.replicate (2 * n + 1) '%' ++ rest) =
          (List.replicate n '%', '%' :: rest)) := by
  have hrun : ∀ (n : Nat) (rest : List Char),
      printFormatStringLiteral (List.replicate (2 * n) '%' ++ rest) =
        (List.replicate n '%' ++ (printFormatStringLiteral rest).1,
          (printFormatStringLiteral rest).2) := by
    intro n
    induction n with
    | zero => intro rest; simp
    | succ m ih =>
        intro rest
        rw [show 2 * (m + 1) = 2 * m + 1 + 1 by ring, List.replicate_succ,
          List.replicate_succ, List.cons_append, List.cons_append,
          printFormatStringLiteral_percent_percent, ih, List.replicate_succ]
        simp
  refine ⟨printFormatStringLiteral_percent_percent, hrun, ?_⟩
  intro n rest h
  rw [show List.replicate (2 * n + 1) '%' ++ rest
        = List.replicate (2 * n) '%' ++ ('%' :: rest) by
      rw [List.replicate_succ']
      simp]
  rw [hrun, printFormatStringLiteral_percent_stop rest h]
  simp

/-- C6 witness: a three-'%' run followed by 'd' emits one literal '%' and
returns the final '%' as the start of the next specifier. -/
theorem c6_witness :
    printFormatStringLiteral (List.replicate (2 * 1 + 1) '%' ++ ['d']) =
      (List.replicate 1 '%', '%' :: ['d']) :=
  c6_percent_runs.2.2 1 ['d'] (by decide)

/-- C7: a precision given as a negative literal ('.' followed by '-' and
digits) is not an error: the sign and digits are consumed, no error is
reported, and the stream precision is set to 0; a specifier with no '.'
leaves the precision at the per-specifier default of 6 installed by the
reset. -/
theorem c7_negative_and_missing_precision :
    (∀ (cs : List Char) (s : StreamState) (args : List Int) (i : Nat),
        parsePrecision ('.' :: '-' :: cs) s args i =
          { rest := cs.dropWhile Char.isDigit, state := { s with precision := 0 },
            precisionSet := true, argIndex := i, errors := [] }) ∧
      (∀ (s : StreamState) (spp : Bool) (nt : Int) (cs : List Char) (args : List Int)
          (i : Nat),
        (streamStateFromFormat s spp nt ('%' :: cs) args i).precisionSet = false →
        (streamStateFromFormat s spp nt ('%' :: cs) args i).state.precision = 6) := by
  constructor
  · intro cs s args i
    rw [show parsePrecision ('.' :: '-' :: cs) s args i =
          { rest := (parseIntAndAdvance cs).2, state := { s with precision := 0 },
            precisionSet := true, argIndex := i, errors := [] } from rfl,
       parseIntAndAdvance_snd]
  · intro s spp nt cs args i h
    obtain ⟨w, p, cv, hrep, hw, hp, hcv⟩ :=
      specAfterFlags_fields (parseFlags cs (resetStreamState s) spp 0) nt args i
    have hopen : streamStateFromFormat s spp nt ('%' :: cs) args i =
        specAfterFlags (parseFlags cs (resetStreamState s) spp 0) nt args i := rfl
    rw [hopen, hrep] at h ⊢
    rw [assembleSpec_precisionSet] at h
    rw [assembleSpec_state_precision, hcv, convSwitch_state_precision]
    rw [hp] at h
    have hpstate := parsePrecision_not_set w.rest w.state args w.argIndex h
    rw [hp, hpstate, hw, parseWidth_precision, parseFlags_precision]
    rfl

/-- C7 witness: "%.-3d" style input sets precision 0 with no error, and the
digit-less "%d" keeps the default precision 6. -/
theorem c7_witness :
    parsePrecision ('.' :: '-' :: ['3', 'd']) defaultStream [] 0 =
        { rest := (['3', 'd'] : List Char).dropWhile Char.isDigit,
          state := { defaultStream with precision := 0 }, precisionSet := true,
          argIndex := 0, errors := [] } ∧
      (streamStateFromFormat defaultStream false (-1) ('%' :: ['d']) [] 0).state.precision
        = 6 :=
  ⟨c7_negative_and_missing_precision.1 ['3', 'd'] defaultStream [] 0,
    c7_negative_and_missing_precision.2 defaultStream false (-1) ['d'] [] 0 (by decide)⟩

/-- C8: the 's' conversion arm sets the boolalpha flag and, exactly when a
precision was explicitly given, captures the stream precision into the ntrunc
side-channel; and for any specifier, starting from the -1 that formatImpl
passes, ntrunc either stays -1 (no truncation) or a precision was explicitly
given and ntrunc equals the resulting stream precision. -/
theorem c8_string_truncation_side_channel :
    (∀ (rest : List Char) (s : StreamState) (nt : Int) (ps : Bool),
        convSwitch ('s' :: rest) s nt ps =
          { rest := rest, state := { s with boolalpha := true },
            ntrunc := if ps then s.precision else nt, intConversion := false,
            errors := [], earlyEnd := false }) ∧
      (∀ (s : StreamState) (spp : Bool) (cs : List Char) (args : List Int) (i : Nat),
        (streamStateFromFormat s spp (-1) ('%' :: cs) args i).ntrunc = -1 ∨
          ((streamStateFromFormat s spp (-1) ('%' :: cs) args i).precisionSet = true ∧
            (streamStateFromFormat s spp (-1) ('%' :: cs) args i).ntrunc =
              (streamStateFromFormat s spp (-1) ('%' :: cs) args i).state.precision)) := by
  constructor
  · intro rest s nt ps
    rfl
  · intro s spp cs args i
    obtain ⟨w, p, cv, hrep, hw, hp, hcv⟩ :=
      specAfterFlags_fields (parseFlags cs (resetStreamState s) spp 0) (-1) args i
    have hopen : streamStateFromFormat s spp (-1) ('%' :: cs) args i =
        specAfterFlags (parseFlags cs (resetStreamState s) spp 0) (-1) args i := rfl
    rw [hopen, hrep, assembleSpec_ntrunc, assembleSpec_precisionSet,
      assembleSpec_state_precision]
    have hnt := convSwitch_ntrunc (skipLengthModifiers p.rest) p.state (-1) p.precisionSet
    rw [← hcv] at hnt
    rcases hnt with hl | ⟨hps, hval⟩
    · exact Or.inl hl
    · right
      refine ⟨hps, ?_⟩
      rw [hval, hcv, convSwitch_state_precision]

/-- C10: a conversion character outside the recognized set (d i u o x X p e E
f F g G c s a A n) that is not the string terminator is silently consumed:
the switch's default arm reports no error and changes nothing, and a specifier
consisting of '%' followed directly by such a character yields the reset state
with the cursor just past the character. -/
theorem c10_unrecognized_conversion (ch : Char) (rest : List Char) (s : StreamState)
    (nt : Int) (ps : Bool) (args : List Int) (i : Nat)
    (hconv : ch ∉ recognizedConvChars) (hflag : isFlagChar ch = false)
    (hdig : ch.isDigit = false) (hstar : ch ≠ '*') (hdot : ch ≠ '.')
    (hlen : isLengthModifier ch = false) :
    convSwitch (ch :: rest) s nt ps =
        { rest := rest, state := s, ntrunc := nt, intConversion := false, errors := [],
          earlyEnd := false } ∧
      streamStateFromFormat s false nt ('%' :: ch :: rest) args i =
        { state := resetStreamState s, spacePadPositive := false, ntrunc := nt,
          argIndex := i, rest := rest, errors := [], precisionSet := false,
          widthSet := false, widthExtra := 0, intConversion := false } := by
  have hgen : ∀ (s' : StreamState) (nt' : Int) (ps' : Bool),
      convSwitch (ch :: rest) s' nt' ps' =
        { rest := rest, state := s', ntrunc := nt', intConversion := false,
          errors := [], earlyEnd := false } := by
    intro s' nt' ps'
    have e : convSwitch (ch :: rest) s' nt' ps' =
        { rest := rest, state := (convSwitchChar ch s' nt' ps').state,
          ntrunc := (convSwitchChar ch s' nt' ps').ntrunc,
          intConversion := (convSwitchChar ch s' nt' ps').intConversion,
          errors := (convSwitchChar ch s' nt' ps').errors, earlyEnd := false } := rfl
    rw [e, convSwitchChar_unrecognized ch s' nt' ps' hconv]
  refine ⟨hgen s nt ps, ?_⟩
  have h5 : (((ch ≠ '#' ∧ ch ≠ '0') ∧ ch ≠ '-') ∧ ch ≠ ' ') ∧ ch ≠ '+' := by
    simpa [isFlagChar] using hflag
  obtain ⟨⟨⟨⟨f1, f2⟩, f3⟩, f4⟩, f5⟩ := h5
  have hflags : parseFlags (ch :: rest) (resetStreamState s) false 0 =
      { rest := ch :: rest, state := resetStreamState s, spacePadPositive := false,
        widthExtra := 0 } := by
    simp [parseFlags, f1, f2, f3, f4, f5]
  have hlit : parseWidthLiteral (ch :: rest) (resetStreamState s) =
      (ch :: rest, resetStreamState s, false) := by
    unfold parseWidthLiteral
    rw [if_neg (by simp [headDigit, hdig])]
  have hstar2 : parseWidthStar (ch :: rest) (resetStreamState s) false args i =
      { rest := ch :: rest, state := resetStreamState s, widthSet := false,
        argIndex := i, errors := [] } := by
    simp only [parseWidthStar]
    rw [if_neg hstar]
  have hwid : parseWidth (ch :: rest) (resetStreamState s) args i =
      { rest := ch :: rest, state := resetStreamState s, widthSet := false,
        argIndex := i, errors := [] } := by
    unfold parseWidth
    rw [hlit]
    exact hstar2
  have hprec : parsePrecision (ch :: rest) (resetStreamState s) args i =
      { rest := ch :: rest, state := resetStreamState s, precisionSet := false,
        argIndex := i, errors := [] } := by
    simp [parsePrecision, hdot]
  have hskip : skipLengthModifiers (ch :: rest) = ch :: rest := by
    simp [skipLengthModifiers, List.dropWhile_cons, hlen]
  have hopen : streamStateFromFormat s false nt ('%' :: ch :: rest) args i =
      specAfterFlags (parseFlags (ch :: rest) (resetStreamState s) false 0) nt args i :=
    rfl
  rw [hopen, hflags]
  obtain ⟨w, p, cv, hrep, hw, hp, hcv⟩ := specAfterFlags_fields
    { rest := ch :: rest, state := resetStreamState s, spacePadPositive := false,
      widthExtra := 0 } nt args i
  rw [hrep]
  have hw2 : w = ({ rest := ch :: rest, state := resetStreamState s, widthSet := false,
                    argIndex := i, errors := [] } : WidthResult) := hw.trans hwid
  have hp2 : p = ({ rest := ch :: rest, state := resetStreamState s,
                    precisionSet := false, argIndex := i, errors := [] } : PrecResult) := by
    rw [hw2] at hp
    exact hp.trans hprec
  have hcv2 : cv = ({ rest := rest, state := resetStreamState s, ntrunc := nt,
                      intConversion := false, errors := [],
                      earlyEnd := false } : ConvResult) := by
    rw [hp2] at hcv
    refine hcv.trans ?_
    rw [hskip]
    exact hgen (resetStreamState s) nt false
  rw [hw2, hp2, hcv2]
  rfl

/-- C10 witness: the unrecognized conversion character 'q' is silently
consumed by the switch and by a full "%q" specifier. -/
theorem c10_witness :
    convSwitch ('q' :: []) defaultStream (-1) false =
        { rest := [], state := defaultStream, ntrunc := -1, intConversion := false,
          errors := [], earlyEnd := false } ∧
      streamStateFromFormat defaultStream false (-1) ('%' :: 'q' :: []) [] 0 =
        { state := resetStreamState defaultStream, spacePadPositive := false,
          ntrunc := -1, argIndex := 0, rest := [], errors := [], precisionSet := false,
          widthSet := false, widthExtra := 0, intConversion := false } :=
  c10_unrecognized_conversion 'q' [] defaultStream (-1) false [] 0 (by decide)
    (by decide) (by decide) (by decide) (by decide) (by decide)

end Tinyformat
